import Mathlib

/-!
# Verification of the gloo rendezvous store layer

Shallow embedding of the coordination key-value store of the gloo
rendezvous layer: the generic interface defaults of
src/gloo/rendezvous/store.h (multi_get, multi_set, append, add), the
in-process HashStore, the FileStore, and the PrefixStore decorator of
src/gloo/rendezvous/prefix_store.cc.

Keys are strings; values are opaque byte sequences, modelled as lists of
naturals (one per byte).  Both concrete backends own a key-to-value
mapping, modelled as a function from keys to optional values (for the
FileStore the mapping is materialised by the base directory: a key is
present exactly when the file base/key exists, and its value is the file
contents).  Operations that can fail return Except; operations whose
C++ bodies mutate member state are state-passing.
-/

namespace Gloo

abbrev Key := String

abbrev Value := List Nat

/-- Error kinds surfaced by the store operations.  HashStore.get throws a
runtime error for a key that is not in the map; FileStore.get throws a
system error whose code is ENOENT when the file does not exist.  Both are
the missing-key failure of the store contract. -/
inductive StoreErr where
  | missingKey (k : Key)
  deriving DecidableEq, Repr

/-- Modelled from the spec: the kNoTimeout sentinel is declared in
gloo/common/store.h, which is not among the sources; the spec requires a
distinguished no-timeout value that is "distinguishable from a zero/short
timeout" and "must cause indefinite blocking", so it is modelled as a
separate constructor that no finite elapsed time ever exceeds. -/
inductive Timeout where
  | noTimeout
  | finite (ms : Nat)
  deriving DecidableEq, Repr

/-- Outcome of one run of a wait loop under a given amount of fuel:
it returned normally, it threw the timeout error, or it is still
blocked (the fuel ran out while it was waiting). -/
inductive WaitOutcome where
  | ok
  | timeoutErr
  | blocked
  deriving DecidableEq, Repr

/-- The key-to-value mapping owned by a backend. -/
abbrev Map := Key → Option Value

def emptyMap : Map := fun _ => none

namespace HashStore

/-- HashStore::set: map_[key] = data (insert or overwrite). -/
def set (m : Map) (k : Key) (v : Value) : Map :=
  fun k2 => if k2 = k then some v else m k2

/-- HashStore::get: looks the key up in map_; throws "Key not found" when
absent.  The pair's second component is the map after the call: the body
only reads map_, so it is the map the call was given. -/
def get (m : Map) (k : Key) : Except StoreErr Value × Map :=
  match m k with
  | some v => (.ok v, m)
  | none => (.error (.missingKey k), m)

/-- The allFound check of HashStore::wait: every requested key is in the
map. -/
def allFound (m : Map) (keys : List Key) : Bool :=
  keys.all fun k => (m k).isSome

/-- HashStore::wait loop.  Each iteration re-checks the full key set under
the lock; between iterations the condition variable sleep lets concurrent
setters run, so iteration i observes the map states i.  With a finite
timeout, cv_.wait_until reports timeout once the clock reaches the
deadline and the loop throws; with the kNoTimeout sentinel the loop calls
the deadline-free cv_.wait and never throws. -/
def waitLoop (states : Nat → Map) (keys : List Key) (timeout : Timeout)
    (deadline : Nat) : Nat → Nat → WaitOutcome
  | 0, _ => .blocked
  | fuel + 1, i =>
    if allFound (states i) keys then .ok
    else
      match timeout with
      | .finite _ =>
        if deadline ≤ i then .timeoutErr
        else waitLoop states keys timeout deadline fuel (i + 1)
      | .noTimeout => waitLoop states keys timeout deadline fuel (i + 1)

/-- HashStore::wait as a state-passing call in a single thread (the map
does not change while it runs).  The body never assigns to map_, so the
map after the call is the map before it. -/
def wait (m : Map) (keys : List Key) (timeout : Timeout)
    (deadline fuel : Nat) : WaitOutcome × Map :=
  (waitLoop (fun _ => m) keys timeout deadline fuel 0, m)

end HashStore

namespace FileStore

/-- FileStore::set: writes data as the complete contents of base/key,
creating or truncating the file; a zero-length write still creates the
file, so the key becomes present with an empty value. -/
def set (f : Map) (k : Key) (v : Value) : Map :=
  fun k2 => if k2 = k then some v else f k2

/-- FileStore::get: reads the complete contents of base/key; when the
file cannot be opened because it does not exist, the thrown system error
(errno ENOENT) is the missing-key failure of the contract. -/
def get (f : Map) (k : Key) : Except StoreErr Value :=
  match f k with
  | some v => .ok v
  | none => .error (.missingKey k)

/-- The readiness check of FileStore::wait: stat succeeds on base/key for
every requested key, i.e. every file exists (contents are not read). -/
def ready (f : Map) (keys : List Key) : Bool :=
  keys.all fun k => (f k).isSome

/-- The elapsed-time check of FileStore::wait: elapsed > timeout.
The kNoTimeout sentinel (modelled from the spec, see Timeout) is never
exceeded by a finite elapsed time. -/
def elapsedExceeds (elapsed : Nat) : Timeout → Bool
  | .noTimeout => false
  | .finite t => t < elapsed

/-- FileStore::wait loop: each iteration stats every requested file, then
compares the elapsed time against the timeout and sleeps 10ms before
retrying.  Iteration i observes the directory states i; the elapsed time
at iteration i is i polling intervals of 10ms. -/
def waitLoop (states : Nat → Map) (keys : List Key) (timeout : Timeout) :
    Nat → Nat → WaitOutcome
  | 0, _ => .blocked
  | fuel + 1, i =>
    if ready (states i) keys then .ok
    else if elapsedExceeds (10 * (i + 1)) timeout then .timeoutErr
    else waitLoop states keys timeout fuel (i + 1)

end FileStore

/-! ## The 8-byte signed 64-bit counter encoding used by Store::add

Store::add memcpy's an int64_t to and from an 8-byte buffer in the
host's native byte order; the host is little-endian, so the encoding is
modelled as 8 little-endian bytes of the two's complement bit pattern. -/

/-- The w low-order bytes of n, least significant first. -/
def natToLeBytes : Nat → Nat → List Nat
  | 0, _ => []
  | w + 1, n => n % 256 :: natToLeBytes w (n / 256)

/-- The natural number denoted by a little-endian byte list. -/
def leBytesToNat : List Nat → Nat
  | [] => 0
  | b :: bs => b + 256 * leBytesToNat bs

/-- Reads a 64-bit two's complement bit pattern as a signed integer. -/
def toSigned64 (n : Nat) : Int :=
  if n < 2 ^ 63 then (n : Int) else (n : Int) - 2 ^ 64

/-- int64_t arithmetic: the result of an operation reduced to the
representable range of a signed 64-bit integer. -/
def wrap64 (i : Int) : Int :=
  toSigned64 (i % 2 ^ 64).toNat

/-- memcpy(&current, data.data(), 8): the int64_t read from an 8-byte
buffer. -/
def decodeInt64 (v : Value) : Int :=
  toSigned64 (leBytesToNat v)

/-- memcpy(newData.data(), &current, 8): the 8-byte buffer holding an
int64_t. -/
def encodeInt64 (i : Int) : Value :=
  natToLeBytes 8 (i % 2 ^ 64).toNat

/-! ## The virtual store interface and its generic defaults

Store's virtual methods dispatch to the receiver's overrides, so the
generic defaults of store.h (multi_get, multi_set, append, add) are
parameterised by the receiver's set/get (and, for the decorator's
forwarding branch, its native multi_set and capability flag). -/

/-- A store backend as seen through the virtual interface: its set and
get, its has_v2_support flag and its (possibly overridden) multi_set,
over a backend-specific state type. -/
structure Backend (σ : Type) where
  set : σ → Key → Value → σ
  get : σ → Key → Except StoreErr Value
  has_v2 : Bool
  multi_set : σ → List Key → List Value → Option σ

/-- Store::multi_set default: for i in [0, keys.size()) it calls
set(keys[i], values[i]) on the receiver.  The loop bound is keys.size()
alone: values[i] is an unchecked operator[], so when values is shorter
than keys the access is out of bounds (undefined behavior, modelled as
none), and when values is longer its extra entries are ignored. -/
def multiSetDefault (setFn : σ → Key → Value → σ) :
    σ → List Key → List Value → Option σ
  | s, [], _ => some s
  | _, _ :: _, [] => none
  | s, k :: ks, v :: vs => multiSetDefault setFn (setFn s k v) ks vs

/-- Store::add default: auto data = get(key) — an unguarded virtual get,
so a missing key propagates get's failure; current defaults to 0 only
when the returned buffer's length differs from sizeof(int64_t); then
current += value, the 8-byte encoding of current is written back through
the virtual set, and current is returned. -/
def storeAdd (B : Backend σ) (s : σ) (k : Key) (delta : Int) :
    Except StoreErr (Int × σ) :=
  match B.get s k with
  | .error e => .error e
  | .ok data =>
    let current : Int := if data.length = 8 then decodeInt64 data else 0
    let total : Int := wrap64 (current + delta)
    .ok (total, B.set s k (encodeInt64 total))

/-- The HashStore seen through the virtual interface: set/get are its
overrides; has_v2_support and multi_set are the inherited defaults of
Store (HashStore overrides neither). -/
def hashBackend : Backend Map where
  set := fun m k v => HashStore.set m k v
  get := fun m k => (HashStore.get m k).1
  has_v2 := false
  multi_set := fun m ks vs =>
    multiSetDefault (fun m2 k v => HashStore.set m2 k v) m ks vs

namespace PrefixStore

/-- PrefixStore::set: store_.set(prefix_ + key, data). -/
def set (B : Backend σ) (pfx : Key) (s : σ) (k : Key) (v : Value) : σ :=
  B.set s (pfx ++ k) v

/-- PrefixStore::get: store_.get(prefix_ + key). -/
def get (B : Backend σ) (pfx : Key) (s : σ) (k : Key) :
    Except StoreErr Value :=
  B.get s (pfx ++ k)

/-- PrefixStore::multi_set: without v2 support in the backing store it
falls back to Store::multi_set, whose virtual set dispatches back to
PrefixStore::set (each key gets the prefix exactly once); with v2
support it forwards the prefixed keys to the backing store's native
multi_set. -/
def multi_set (B : Backend σ) (pfx : Key) (s : σ)
    (keys : List Key) (values : List Value) : Option σ :=
  if !B.has_v2 then
    multiSetDefault (fun s2 k v => set B pfx s2 k v) s keys values
  else
    B.multi_set s (keys.map fun k => pfx ++ k) values

end PrefixStore

/-! ## Helper facts about keys and the counter encoding -/

/-- Decidable check that the first character list is an initial segment
of the second. -/
def listLeads : List Char → List Char → Bool
  | [], _ => true
  | _ :: _, [] => false
  | a :: as, b :: bs => if a = b then listLeads as bs else false

theorem listLeads_total_of_append_eq :
    ∀ (l1 l2 t1 t2 : List Char), l1 ++ t1 = l2 ++ t2 →
      listLeads l1 l2 = true ∨ listLeads l2 l1 = true := by
  intro l1
  induction l1 with
  | nil => intro l2 t1 t2 _; left; rfl
  | cons a as ih =>
    intro l2 t1 t2 h
    cases l2 with
    | nil => right; rfl
    | cons b bs =>
      simp only [List.cons_append, List.cons.injEq] at h
      obtain ⟨hab, htail⟩ := h
      rcases ih bs t1 t2 htail with h1 | h1
      · left; simp [listLeads, hab, h1]
      · right; simp [listLeads, hab, h1]

theorem string_data_append (s t : String) : (s ++ t).data = s.data ++ t.data := by
  cases s
  cases t
  rfl

theorem string_eq_of_data_eq (s t : String) (h : s.data = t.data) : s = t := by
  cases s
  cases t
  exact congrArg String.mk h

theorem append_key_ne_of_ne (p1 p2 k : String) (h : p1 ≠ p2) :
    p1 ++ k ≠ p2 ++ k := by
  intro he
  apply h
  have hd : p1.data ++ k.data = p2.data ++ k.data := by
    have := congrArg String.data he
    rwa [string_data_append, string_data_append] at this
  exact string_eq_of_data_eq p1 p2 (List.append_cancel_right hd)

theorem append_key_ne_of_not_leads (p1 p2 k1 k2 : String)
    (h1 : listLeads p1.data p2.data = false)
    (h2 : listLeads p2.data p1.data = false) :
    p1 ++ k1 ≠ p2 ++ k2 := by
  intro he
  have hd : p1.data ++ k1.data = p2.data ++ k2.data := by
    have := congrArg String.data he
    rwa [string_data_append, string_data_append] at this
  rcases listLeads_total_of_append_eq p1.data p2.data k1.data k2.data hd with h | h
  · rw [h1] at h; exact Bool.false_ne_true h
  · rw [h2] at h; exact Bool.false_ne_true h

theorem wrap64_eq_self (i : Int) (h1 : -(2 ^ 63) ≤ i) (h2 : i < 2 ^ 63) :
    wrap64 i = i := by
  have e64 : ((2 : Int) ^ 64) = 18446744073709551616 := by norm_num
  have e63n : ((2 : Nat) ^ 63) = 9223372036854775808 := by norm_num
  have e63i : ((2 : Int) ^ 63) = 9223372036854775808 := by norm_num
  unfold wrap64 toSigned64
  rw [e64, e63n]
  rw [e63i] at h1 h2
  split <;> omega

theorem hash_waitLoop_noTimeout_ne_timeout (states : Nat → Map)
    (keys : List Key) (d : Nat) :
    ∀ fuel i, HashStore.waitLoop states keys .noTimeout d fuel i ≠ .timeoutErr := by
  intro fuel
  induction fuel with
  | zero => intro i; simp [HashStore.waitLoop]
  | succ n ih =>
    intro i
    by_cases h : HashStore.allFound (states i) keys
    · simp [HashStore.waitLoop, h]
    · simp [HashStore.waitLoop, h, ih]

theorem hash_waitLoop_ok_imp_found (states : Nat → Map)
    (keys : List Key) (t : Timeout) (d : Nat) :
    ∀ fuel i, HashStore.waitLoop states keys t d fuel i = .ok →
      ∃ j, HashStore.allFound (states j) keys = true := by
  intro fuel
  induction fuel with
  | zero => intro i h; simp [HashStore.waitLoop] at h
  | succ n ih =>
    intro i h
    by_cases hf : HashStore.allFound (states i) keys
    · exact ⟨i, hf⟩
    · cases t with
      | noTimeout =>
        rw [HashStore.waitLoop] at h
        simp only [hf, if_false] at h
        exact ih (i + 1) h
      | finite ms =>
        rw [HashStore.waitLoop] at h
        simp only [hf, if_false] at h
        by_cases hd : d ≤ i
        · simp [hd] at h
        · simp only [hd, if_false] at h
          exact ih (i + 1) h

theorem file_waitLoop_noTimeout_ne_timeout (states : Nat → Map)
    (keys : List Key) :
    ∀ fuel i, FileStore.waitLoop states keys .noTimeout fuel i ≠ .timeoutErr := by
  intro fuel
  induction fuel with
  | zero => intro i; simp [FileStore.waitLoop]
  | succ n ih =>
    intro i
    by_cases h : FileStore.ready (states i) keys
    · simp [FileStore.waitLoop, h]
    · simp [FileStore.waitLoop, h, FileStore.elapsedExceeds, ih]

theorem file_waitLoop_ok_imp_ready (states : Nat → Map)
    (keys : List Key) (t : Timeout) :
    ∀ fuel i, FileStore.waitLoop states keys t fuel i = .ok →
      ∃ j, FileStore.ready (states j) keys = true := by
  intro fuel
  induction fuel with
  | zero => intro i h; simp [FileStore.waitLoop] at h
  | succ n ih =>
    intro i h
    by_cases hf : FileStore.ready (states i) keys
    · exact ⟨i, hf⟩
    · rw [FileStore.waitLoop] at h
      simp only [hf, if_false] at h
      by_cases he : FileStore.elapsedExceeds (10 * (i + 1)) t = true
      · simp [he] at h
      · simp only [Bool.not_eq_true] at he
        simp only [he, if_false] at h
        exact ih (i + 1) h

theorem multiSetDefault_spec {σ : Type} (setFn : σ → Key → Value → σ) :
    ∀ (keys : List Key) (values : List Value) (s : σ),
      (keys.length ≤ values.length →
        multiSetDefault setFn s keys values =
          some ((keys.zip values).foldl (fun s2 kv => setFn s2 kv.1 kv.2) s)) ∧
      (values.length < keys.length →
        multiSetDefault setFn s keys values = none) := by
  intro keys
  induction keys with
  | nil =>
    intro values s
    constructor
    · intro _; rfl
    · intro h; simp at h
  | cons k ks ih =>
    intro values s
    cases values with
    | nil =>
      constructor
      · intro h; simp at h
      · intro _; rfl
    | cons v vs =>
      constructor
      · intro h
        simp only [List.length_cons, Nat.succ_le_succ_iff] at h
        simpa [multiSetDefault] using (ih vs (setFn s k v)).1 h
      · intro h
        simp only [List.length_cons, Nat.succ_lt_succ_iff] at h
        simpa [multiSetDefault] using (ih vs (setFn s k v)).2 h

end Gloo

/-! ## The claims -/

namespace Gloo

/-- C5: for all keys k and values v, after set(k, v) returns on the
in-process store, get(k) returns exactly v: the stored value is the byte
sequence supplied, replacing any prior value. -/
theorem hashstore_set_then_get (m : Map) (k : Key) (v : Value) :
    (HashStore.get (HashStore.set m k v) k).1 = .ok v := by
  simp [HashStore.get, HashStore.set]

/-- C6: get on a key that has never been set fails with the missing-key
error and never returns a default value, in both the in-process and the
filesystem backends; get is a plain lookup and performs no waiting. -/
theorem get_unset_key_fails (m f : Map) (k : Key)
    (h1 : m k = none) (h2 : f k = none) :
    (HashStore.get m k).1 = .error (.missingKey k) ∧
    FileStore.get f k = .error (.missingKey k) := by
  simp [HashStore.get, FileStore.get, h1, h2]

/-- Witness for C6 at the empty stores and the key "rank0.addr". -/
theorem get_unset_key_fails_witness :
    (HashStore.get emptyMap "rank0.addr").1 = .error (.missingKey "rank0.addr") ∧
    FileStore.get emptyMap "rank0.addr" = .error (.missingKey "rank0.addr") :=
  get_unset_key_fails emptyMap emptyMap "rank0.addr" rfl rfl

/-- C9: get and wait never modify the key-to-value mapping: for every
map, key, key set and timeout, the mapping after HashStore.get (on both
the found and the missing-key path) and after HashStore.wait is exactly
the mapping before the call; only set produces a new mapping. -/
theorem get_wait_preserve_map (m : Map) (k : Key) (keys : List Key)
    (t : Timeout) (d fuel : Nat) :
    (HashStore.get m k).2 = m ∧ (HashStore.wait m keys t d fuel).2 = m := by
  constructor
  · cases hmk : m k <;> simp [HashStore.get, hmk]
  · rfl

/-- C10: in the filesystem store an empty value is a valid publication:
after set(k, []) the file exists, so wait({k}, t) succeeds on its first
readiness check for any timeout, and get(k) returns the empty byte
sequence. -/
theorem filestore_empty_value_publication (f : Map) (k : Key)
    (t : Timeout) (fuel i : Nat) :
    FileStore.get (FileStore.set f k []) k = .ok [] ∧
    FileStore.waitLoop (fun _ => FileStore.set f k []) [k] t (fuel + 1) i = .ok := by
  have hr : FileStore.ready (FileStore.set f k []) [k] = true := by
    simp [FileStore.ready, FileStore.set]
  constructor
  · simp [FileStore.get, FileStore.set]
  · rw [FileStore.waitLoop]
    simp [hr]

/-- C2: with the no-timeout sentinel, wait never fails with a timeout
error in either backend, whatever the schedule of concurrent sets and
however long it runs (any fuel); and it only returns normally once every
requested key is present in an observed state. -/
theorem wait_noTimeout_never_times_out (states : Nat → Map)
    (keys : List Key) (d fuel i : Nat) :
    HashStore.waitLoop states keys .noTimeout d fuel i ≠ .timeoutErr ∧
    FileStore.waitLoop states keys .noTimeout fuel i ≠ .timeoutErr ∧
    (HashStore.waitLoop states keys .noTimeout d fuel i = .ok →
      ∃ j, HashStore.allFound (states j) keys = true) ∧
    (FileStore.waitLoop states keys .noTimeout fuel i = .ok →
      ∃ j, FileStore.ready (states j) keys = true) :=
  ⟨hash_waitLoop_noTimeout_ne_timeout states keys d fuel i,
   file_waitLoop_noTimeout_ne_timeout states keys fuel i,
   hash_waitLoop_ok_imp_found states keys .noTimeout d fuel i,
   file_waitLoop_ok_imp_ready states keys .noTimeout fuel i⟩

/-- Witness for C2 at a schedule whose every state holds the key "k". -/
theorem wait_noTimeout_never_times_out_witness :
    HashStore.waitLoop (fun _ => HashStore.set emptyMap "k" [1]) ["k"]
      .noTimeout 0 1 0 ≠ .timeoutErr ∧
    (∃ _ : Nat, HashStore.allFound (HashStore.set emptyMap "k" [1]) ["k"] = true) :=
  ⟨(wait_noTimeout_never_times_out (fun _ => HashStore.set emptyMap "k" [1])
      ["k"] 0 1 0).1,
   (wait_noTimeout_never_times_out (fun _ => HashStore.set emptyMap "k" [1])
      ["k"] 0 1 0).2.2.1 rfl⟩

/-- C1 counterexample: on a store in which the key is absent, the generic
default add does not succeed with the delta: the unguarded internal get
propagates the missing-key failure, so add(k, 5) starting from an absent
key throws instead of returning 5. -/
theorem add_on_absent_key_errors :
    storeAdd hashBackend emptyMap "k" 5 = .error (.missingKey "k") := rfl

/-- C1 (amended): the generic default add on an absent key fails with the
missing-key error of the internal get; once the key is present with a
value whose length differs from 8 it is treated as a zero counter, so
after set(k, empty), add(k, 5) returns 5, a subsequent add(k, 3) returns
8, and the 8-byte encoding of 8 is left stored under k. -/
theorem add_missing_key_then_zero_default (m : Map) (k : Key) (d : Int)
    (h : m k = none) :
    storeAdd hashBackend m k d = .error (.missingKey k) ∧
    storeAdd hashBackend (HashStore.set m k []) k 5 =
      .ok (5, HashStore.set (HashStore.set m k []) k (encodeInt64 5)) ∧
    storeAdd hashBackend
        (HashStore.set (HashStore.set m k []) k (encodeInt64 5)) k 3 =
      .ok (8, HashStore.set
        (HashStore.set (HashStore.set m k []) k (encodeInt64 5)) k
        (encodeInt64 8)) ∧
    HashStore.set
        (HashStore.set (HashStore.set m k []) k (encodeInt64 5)) k
        (encodeInt64 8) k = some (encodeInt64 8) ∧
    (encodeInt64 8).length = 8 := by
  have h0 : (HashStore.set m k []) k = some [] := by simp [HashStore.set]
  have h1 : (HashStore.set (HashStore.set m k []) k (encodeInt64 5)) k =
      some (encodeInt64 5) := by simp [HashStore.set]
  have w5 : wrap64 (0 + 5) = 5 := by decide
  have w5b : wrap64 5 = 5 := by decide
  have hlen5 : (encodeInt64 5).length = 8 := by decide
  have hdec5 : decodeInt64 (encodeInt64 5) = 5 := by decide
  have w8 : wrap64 (5 + 3) = 8 := by decide
  have w8b : wrap64 8 = 8 := by decide
  refine ⟨?_, ?_, ?_, ?_, ?_⟩
  · simp [storeAdd, hashBackend, HashStore.get, h]
  · simp [storeAdd, hashBackend, HashStore.get, h0, w5, w5b]
  · simp [storeAdd, hashBackend, HashStore.get, h1, hlen5, hdec5, w8, w8b]
  · simp [HashStore.set]
  · decide

/-- Witness for C1 (amended) at the empty store and the key "c". -/
theorem add_missing_key_then_zero_default_witness :
    storeAdd hashBackend emptyMap "c" 7 = .error (.missingKey "c") :=
  (add_missing_key_then_zero_default emptyMap "c" 7 rfl).1

/-- C8: for any backend, when the stored value under k has a length
different from 8 bytes, the generic default add treats it as an absent /
zero counter: add(k, d) returns d and writes the fixed 8-byte encoding
of the signed 64-bit integer d back under k (d ranging over the values
of an int64_t). -/
theorem add_wrong_length_zero_default {σ : Type} (B : Backend σ) (s : σ)
    (k : Key) (v : Value) (d : Int)
    (hv : B.get s k = .ok v) (hlen : v.length ≠ 8)
    (hd1 : -(2 ^ 63) ≤ d) (hd2 : d < 2 ^ 63) :
    storeAdd B s k d = .ok (d, B.set s k (encodeInt64 d)) := by
  have w : wrap64 d = d := wrap64_eq_self d hd1 hd2
  simp [storeAdd, hv, hlen, w]

/-- Witness for C8 at the in-process backend holding a 1-byte value. -/
theorem add_wrong_length_zero_default_witness :
    storeAdd hashBackend (HashStore.set emptyMap "k" [7]) "k" 5 =
      .ok (5, hashBackend.set (HashStore.set emptyMap "k" [7]) "k"
        (encodeInt64 5)) :=
  add_wrong_length_zero_default hashBackend (HashStore.set emptyMap "k" [7])
    "k" [7] 5 rfl (by decide) (by decide) (by decide)

/-- C3 counterexample: a call with mismatched-length sequences (one key,
two values) does not fail with an argument error: the generic default
multi_set loops over the key indices only, so it succeeds, stores the
first value, and silently ignores the extra one. -/
theorem multi_set_length_mismatch_succeeds :
    multiSetDefault (fun m k v => HashStore.set m k v) emptyMap
      ["a"] [[1], [2]] = some (HashStore.set emptyMap "a" [1]) := rfl

/-- C3 (amended): the generic default multi_set performs no length
validation and raises no argument error: it sequentially sets
keys[i] to values[i] for every index of keys, so whenever keys is at
most as long as values it succeeds with exactly those writes (extra
values ignored), and keys.size() <= values.size() is the precondition
for defined behavior — when keys is longer the loop reads values out of
bounds. -/
theorem multi_set_no_length_check {σ : Type} (B : Backend σ) (s : σ)
    (keys : List Key) (values : List Value) :
    (keys.length ≤ values.length →
      multiSetDefault B.set s keys values =
        some ((keys.zip values).foldl (fun s2 kv => B.set s2 kv.1 kv.2) s)) ∧
    (values.length < keys.length →
      multiSetDefault B.set s keys values = none) :=
  multiSetDefault_spec B.set keys values s

/-- Witness for C3 (amended) on the in-process backend, with two keys
against three values and against one value. -/
theorem multi_set_no_length_check_witness :
    multiSetDefault hashBackend.set emptyMap ["a", "b"] [[1], [2], [3]] =
      some (((["a", "b"].zip [[1], [2], [3]]).foldl
        (fun s2 kv => hashBackend.set s2 kv.1 kv.2) emptyMap)) ∧
    multiSetDefault hashBackend.set emptyMap ["a", "b"] [[1]] = none :=
  ⟨(multi_set_no_length_check hashBackend emptyMap ["a", "b"]
      [[1], [2], [3]]).1 (by decide),
   (multi_set_no_length_check hashBackend emptyMap ["a", "b"] [[1]]).2
      (by decide)⟩

/-- C4 counterexample: two decorators with the distinct prefixes "a" and
"ab" over the same backing store do not have disjoint physical key sets:
a set through the first on logical key "bx" and a get through the second
on logical key "x" meet at the same physical key "abx", so the write is
visible through the other decorator. -/
theorem distinct_prefixes_can_collide :
    ("a" : String) ≠ "ab" ∧
    PrefixStore.get hashBackend "ab"
      (PrefixStore.set hashBackend "a" emptyMap "bx" [1]) "x" = .ok [1] :=
  ⟨by decide, rfl⟩

/-- C4 (amended): for two prefix decorators with distinct prefixes over
the same backing store, a set through one on a logical key is invisible
to a get through the other on the same logical key (prefixed keys with a
common suffix differ); full disjointness of the two physical key spaces
additionally requires that neither prefix is an initial segment of the
other, and under that condition a set through one decorator is invisible
to a get through the other on every pair of logical keys. -/
theorem prefix_isolation_amended (p1 p2 : String) (m : Map)
    (k k1 k2 : Key) (v : Value) :
    (p1 ≠ p2 →
      PrefixStore.get hashBackend p2
        (PrefixStore.set hashBackend p1 m k v) k =
        PrefixStore.get hashBackend p2 m k) ∧
    (listLeads p1.data p2.data = false →
      listLeads p2.data p1.data = false →
      (p1 ++ k1 : String) ≠ p2 ++ k2 ∧
      PrefixStore.get hashBackend p2
        (PrefixStore.set hashBackend p1 m k1 v) k2 =
        PrefixStore.get hashBackend p2 m k2) := by
  constructor
  · intro h
    have hne : (p2 ++ k : String) ≠ p1 ++ k :=
      append_key_ne_of_ne p2 p1 k (Ne.symm h)
    cases hm : m (p2 ++ k) <;>
      simp [PrefixStore.get, PrefixStore.set, hashBackend, HashStore.get,
        HashStore.set, hne, hm]
  · intro h1 h2
    have hne : (p1 ++ k1 : String) ≠ p2 ++ k2 :=
      append_key_ne_of_not_leads p1 p2 k1 k2 h1 h2
    refine ⟨hne, ?_⟩
    have hne2 : (p2 ++ k2 : String) ≠ p1 ++ k1 := Ne.symm hne
    cases hm : m (p2 ++ k2) <;>
      simp [PrefixStore.get, PrefixStore.set, hashBackend, HashStore.get,
        HashStore.set, hne2, hm]

/-- Witness for C4 (amended) at the prefixes "a/" and "b/". -/
theorem prefix_isolation_amended_witness :
    PrefixStore.get hashBackend "b/"
      (PrefixStore.set hashBackend "a/" emptyMap "x" [1]) "x" =
      PrefixStore.get hashBackend "b/" emptyMap "x" ∧
    ("a/" ++ "x" : String) ≠ "b/" ++ "y" :=
  ⟨(prefix_isolation_amended "a/" "b/" emptyMap "x" "x" "y" [1]).1
      (by decide),
   ((prefix_isolation_amended "a/" "b/" emptyMap "x" "x" "y" [1]).2
      (by decide) (by decide)).1⟩

/-- C7: for a backing store without v2 support, multi_set(["a","b"],
[v1,v2]) through a prefix decorator takes the generic fallback, whose
virtual set dispatches back through the decorator, and produces exactly
the final backing-store state of the two sequential calls
set(p ++ "a", v1) and set(p ++ "b", v2). -/
theorem prefix_multi_set_fallback_equiv {σ : Type} (B : Backend σ)
    (pfx : Key) (s : σ) (v1 v2 : Value) (h : B.has_v2 = false) :
    PrefixStore.multi_set B pfx s ["a", "b"] [v1, v2] =
      some (B.set (B.set s (pfx ++ "a") v1) (pfx ++ "b") v2) := by
  simp [PrefixStore.multi_set, h, multiSetDefault, PrefixStore.set]

/-- Witness for C7 at the in-process backend, which has no v2 support. -/
theorem prefix_multi_set_fallback_equiv_witness :
    PrefixStore.multi_set hashBackend "p/" emptyMap ["a", "b"] [[1], [2]] =
      some (hashBackend.set (hashBackend.set emptyMap ("p/" ++ "a") [1])
        ("p/" ++ "b") [2]) :=
  prefix_multi_set_fallback_equiv hashBackend "p/" emptyMap [1] [2] rfl

end Gloo
